import Mathlib

set_option maxHeartbeats 1000000
set_option autoImplicit false
set_option linter.unusedVariables false

/-!
Shallow embedding of the AI enrichment pipeline in `src/indexAlgolia.js`
(functions `enrichContentWithAI` and `processArticles`).

Modelling conventions:
* JavaScript strings are `List Char` (abbreviated `JStr`).
* JavaScript values reachable in this program are the inductive `JsValue`
  (JSON values plus `undefined`); numbers are modelled as `Int`, which is
  faithful for every value this program inspects (array lengths, the
  strict comparison `=== 0`).
* Exceptions are modelled with `Except JsErr`; a JavaScript `TypeError`
  raised by a property access on `null`/`undefined` or by calling a
  missing method is `JsErr.typeError`.
* The two external effectful collaborators are parameters:
  `Gen` stands for `ai.models.generateContent` (its argument is the
  prompt, its result the response value or a raised error) and
  `Parser` stands for `JSON.parse` (result value or `SyntaxError`
  message).  `fs.readFile` is the `Except JStr JStr` argument of
  `processArticles`.
* `enrichContentWithAI` additionally returns the number of model calls
  it performed, so that "no model call happens" is a provable fact.
-/

abbrev JStr := List Char

def js (s : String) : JStr := s.toList

inductive JsValue where
  | undefined : JsValue
  | null : JsValue
  | bool : Bool → JsValue
  | num : Int → JsValue
  | str : JStr → JsValue
  | arr : List JsValue → JsValue
  | obj : List (JStr × JsValue) → JsValue

/-- JavaScript truthiness for the values of our model. -/
def truthy : JsValue → Bool
  | .undefined => false
  | .null => false
  | .bool b => b
  | .num n => n != 0
  | .str s => !s.isEmpty
  | .arr _ => true
  | .obj _ => true

def isStr : JsValue → Bool
  | .str _ => true
  | _ => false

def isObj : JsValue → Bool
  | .obj _ => true
  | _ => false

def isArr : JsValue → Bool
  | .arr _ => true
  | _ => false

def strVal : JsValue → JStr
  | .str s => s
  | _ => []

/-- Strict equality test against the number literal `0` (`=== 0`). -/
def isNumZero : JsValue → Bool
  | .num n => n == 0
  | _ => false

/-- First-match association-list lookup (JavaScript objects have unique
keys, so first-match and last-match coincide on real objects). -/
def assocGet (fs : List (JStr × JsValue)) (k : JStr) : Option JsValue :=
  match fs with
  | [] => none
  | p :: rest => if p.1 == k then some p.2 else assocGet rest k

/-- Own-property lookup used in specifications (`none` = key absent). -/
def getOwn (v : JsValue) (k : JStr) : Option JsValue :=
  match v with
  | .obj fs => assocGet fs k
  | _ => none

inductive JsErr where
  | typeError : JStr → JsErr
  | ioError : JStr → JsErr
  | genError : JStr → JsErr
  | candidateError : JsErr
  | noJsonError : JStr → JsErr
  | parseError : JStr → JsErr

/-- The `message` carried by each modelled exception, as built by the
`throw new Error(...)` sites of the source (and pass-through for the
messages of external errors). -/
def errMessage : JsErr → JStr
  | .typeError m => m
  | .ioError m => m
  | .genError m => m
  | .candidateError => js "Gemini API did not return a valid text candidate."
  | .noJsonError cleaned => js "Could not find valid JSON in Gemini response: " ++ cleaned
  | .parseError m => m

/-- Classification of the spec (section 7): an `ExtractionError` is a
failure to locate or parse the structured payload in the model text. -/
def isExtractionError : JsErr → Bool
  | .noJsonError _ => true
  | .parseError _ => true
  | _ => false

/-- Property access `v[k]`: throws `TypeError` on `null`/`undefined`,
yields `undefined` for a missing property; `length` of an array is its
element count. -/
def getProp (v : JsValue) (k : JStr) : Except JsErr JsValue :=
  match v with
  | .null => .error (.typeError (js "cannot read properties of null"))
  | .undefined => .error (.typeError (js "cannot read properties of undefined"))
  | .obj fs => .ok ((assocGet fs k).getD .undefined)
  | .arr xs => .ok (if k == js "length" then .num xs.length else .undefined)
  | _ => .ok .undefined

/-- Index access `v[i]` for a numeric literal index. -/
def getIndex (v : JsValue) (i : Nat) : Except JsErr JsValue :=
  match v with
  | .null => .error (.typeError (js "cannot read properties of null"))
  | .undefined => .error (.typeError (js "cannot read properties of undefined"))
  | .arr xs => .ok ((xs.get? i).getD .undefined)
  | .obj fs => .ok ((assocGet fs (js (toString i))).getD .undefined)
  | .str s => .ok (if h : i < s.length then .str [s.get ⟨i, h⟩] else .undefined)
  | _ => .ok .undefined

/-- JavaScript `String.prototype.trim` (ASCII whitespace model). -/
def jsTrim (s : JStr) : JStr :=
  ((s.dropWhile Char.isWhitespace).reverse.dropWhile Char.isWhitespace).reverse

/-- `s.split(c)` for a one-character separator, JavaScript semantics
(`"".split(",") = [""]`, empty pieces kept). -/
def splitComma : JStr → List JStr
  | [] => [[]]
  | c :: rest =>
    if c = ',' then [] :: splitComma rest
    else
      match splitComma rest with
      | g :: gs => (c :: g) :: gs
      | [] => [[c]]

/-- `v.split(',').map(k => k.trim())`: only a string has a `split`
method, every other receiver raises `TypeError` (on `null`/`undefined`
the property access itself throws, on other values `split` is not a
function; JSON data never carries functions). -/
def jsSplitTrim (v : JsValue) : Except JsErr (List JStr) :=
  match v with
  | .str s => .ok ((splitComma s).map jsTrim)
  | .null => .error (.typeError (js "cannot read properties of null"))
  | .undefined => .error (.typeError (js "cannot read properties of undefined"))
  | _ => .error (.typeError (js "split is not a function"))

/-- `s.indexOf(c)` (as `none` instead of `-1`). -/
def idxOf? : JStr → Char → Option Nat
  | [], _ => none
  | c :: rest, t => if c = t then some 0 else (idxOf? rest t).map Nat.succ

/-- `s.lastIndexOf(c)` (as `none` instead of `-1`). -/
def lastIdxOf? (s : JStr) (c : Char) : Option Nat :=
  (idxOf? s.reverse c).map (fun i => s.length - 1 - i)

def braceOpenC : Char := Char.ofNat 123

def braceCloseC : Char := Char.ofNat 125

def fenceOpen : JStr := js "```json\n"

def fenceClose : JStr := js "\n```"

/-- `text.replace(/^` ````json\n`` `|\n` ``` ``` `$/g, '')`: the regex is
anchored, so it removes one leading fence marker and one
non-overlapping trailing fence marker; removing the prefix first and
then testing the suffix of the remainder is extensionally identical. -/
def stripFence (s : JStr) : JStr :=
  let s1 := if fenceOpen.isPrefixOf s then s.drop fenceOpen.length else s
  if fenceClose.isSuffixOf s1 then s1.take (s1.length - fenceClose.length) else s1

/-- Lines 126-134: locate `indexOf('{')` and `lastIndexOf('}')`; when
both exist and the end strictly follows the start, slice
`substring(start, end + 1)`, otherwise `none` (the code then throws). -/
def braceSlice (s : JStr) : Option JStr :=
  match idxOf? s braceOpenC, lastIdxOf? s braceCloseC with
  | some i, some j => if j > i then some ((s.drop i).take (j + 1 - i)) else none
  | _, _ => none

structure EnrichmentResult where
  summary : JsValue
  keywords : List JStr
  category : JsValue
  sentiment : JsValue

/-- `{ summary: null, keywords: [], category: null, sentiment: null }`. -/
def defaultResult : EnrichmentResult :=
  { summary := .null, keywords := [], category := .null, sentiment := .null }

def keySummary : JStr := js "summary"
def keyKeywords : JStr := js "keywords"
def keyCategory : JStr := js "category"
def keySentiment : JStr := js "sentiment"

/-- `v || null`. -/
def orNull (v : JsValue) : JsValue := if truthy v then v else .null

/-- Lines 139-144: build the returned object from the parsed payload, in
source evaluation order (`summary`, then `keywords` — whose `split` may
throw — then `category`, `sentiment`). -/
def normalizePayload (parsedResult : JsValue) : Except JsErr EnrichmentResult := do
  let s ← getProp parsedResult keySummary
  let kw ← getProp parsedResult keyKeywords
  let kws ← if truthy kw then jsSplitTrim kw else pure []
  let c ← getProp parsedResult keyCategory
  let st ← getProp parsedResult keySentiment
  return { summary := orNull s, keywords := kws, category := orNull c, sentiment := orNull st }

abbrev Parser := JStr → Except JStr JsValue

abbrev Gen := JStr → Except JStr JsValue

/-- Lines 124-144 (the spec's Response Extractor, section 4.1): clean the
raw text, slice between the outermost braces, `JSON.parse` the slice
(`parse` parameter; a `SyntaxError` propagates as `parseError`), then
normalize the payload. -/
def extract (parse : Parser) (text : JStr) : Except JsErr EnrichmentResult := do
  let cleanedText := jsTrim (stripFence text)
  match braceSlice cleanedText with
  | none => throw (.noJsonError cleanedText)
  | some jsonString => do
    let parsedResult ← (parse jsonString).mapError JsErr.parseError
    normalizePayload parsedResult

def keyCandidates : JStr := js "candidates"
def keyLength : JStr := js "length"
def keyContent : JStr := js "content"
def keyParts : JStr := js "parts"
def keyText : JStr := js "text"

/-- Lines 107-110: the short-circuited validity test of the response
shape; `.ok true` means the guard fired (invalid), a `TypeError` raised
half-way through the chained accesses propagates. -/
def checkShape (result : JsValue) : Except JsErr Bool :=
  if !truthy result then .ok true else
  (getProp result keyCandidates).bind fun cands =>
  if !truthy cands then .ok true else
  (getProp cands keyLength).bind fun len =>
  if isNumZero len then .ok true else
  (getIndex cands 0).bind fun c0 =>
  (getProp c0 keyContent).bind fun content =>
  if !truthy content then .ok true else
  (getProp content keyParts).bind fun parts =>
  if !truthy parts then .ok true else
  (getProp parts keyLength).bind fun plen =>
  if isNumZero plen then .ok true else
  (getIndex parts 0).bind fun p0 =>
  (getProp p0 keyText).bind fun txt =>
  .ok (!truthy txt)

/-- Lines 107-120: throw `Error("Gemini API did not return a valid text
candidate.")` when the shape test fires, otherwise re-read
`result.candidates[0].content.parts[0].text`. -/
def getValidText (result : JsValue) : Except JsErr JsValue :=
  (checkShape result).bind fun bad =>
  if bad then .error .candidateError else
  (getProp result keyCandidates).bind fun cands =>
  (getIndex cands 0).bind fun c0 =>
  (getProp c0 keyContent).bind fun content =>
  (getProp content keyParts).bind fun parts =>
  (getIndex parts 0).bind fun p0 =>
  getProp p0 keyText

def apos : Char := Char.ofNat 39

/-- The fixed instruction prompt (lines 83-96) up to the interpolated
content. -/
def promptPre : JStr :=
  js "\n    You are an expert content analyzer. For the following text, perform the following tasks:\n    1. Summarize the content concisely, in about 2-3 sentences.\n    2. Identify 5-7 main keywords or tags that accurately describe the content. Provide them as a comma-separated list.\n    3. Categorize the content into one of these broad categories: Technology, Environment, Healthcare, Business, Education, Science, Arts & Culture, General. If none fit perfectly, use "
    ++ [apos] ++ js "General" ++ [apos]
    ++ js ".\n    4. Based on the overall tone, assign a sentiment: Positive, Neutral, or Negative.\n\n    Provide the output in a JSON format with keys: \"summary\", \"keywords\", \"category\", \"sentiment\".\n\n    Content:\n    ---\n    "

def promptPost : JStr := js "\n    ---\n    "

def mkPrompt (content : JStr) : JStr := promptPre ++ content ++ promptPost

/-- The body of the `try` block of `enrichContentWithAI` (lines 99-144):
one model call, response-shape validation, text extraction,
normalization.  An error raised by the model call propagates as
`genError`. -/
def enrichBody (gen : Gen) (parse : Parser) (content : JStr) :
    Except JsErr EnrichmentResult := do
  let result ← (gen (mkPrompt content)).mapError JsErr.genError
  let txt ← getValidText result
  match txt with
  | .str t => extract parse t
  | _ => .error (.typeError (js "replace is not a function"))

/-- `enrichContentWithAI(content, objectId)` (lines 72-155).  The second
component counts the `generateContent` invocations performed. -/
def enrichContentWithAI (gen : Gen) (parse : Parser)
    (content : JsValue) (objectId : JsValue) : EnrichmentResult × Nat :=
  if !truthy content || !isStr content then (defaultResult, 0)
  else
    match enrichBody gen parse (strVal content) with
    | .ok r => (r, 1)
    | .error _ => (defaultResult, 1)

def natToJStr (n : Nat) : JStr := js (toString n)

/-- Object spread `{...v}`: own enumerable properties.  Spreading a
string or an array contributes its elements under their decimal index
keys; spreading any other primitive contributes nothing. -/
def spreadFields : JsValue → List (JStr × JsValue)
  | .obj fs => fs
  | .str s => s.enum.map (fun p => (natToJStr p.1, .str [p.2]))
  | .arr xs => xs.enum.map (fun p => (natToJStr p.1, p.2))
  | _ => []

/-- Setting key `k` in an object literal: overrides in place when the
key exists, appends otherwise (JavaScript property-order semantics). -/
def setKey (fs : List (JStr × JsValue)) (k : JStr) (v : JsValue) :
    List (JStr × JsValue) :=
  if fs.any (fun p => p.1 == k) then
    fs.map (fun p => if p.1 == k then (k, v) else p)
  else fs ++ [(k, v)]

def keyAiSummary : JStr := js "ai_summary"
def keyAiKeywords : JStr := js "ai_keywords"
def keyAiCategory : JStr := js "ai_category"
def keyAiSentiment : JStr := js "ai_sentiment"

/-- Lines 166-172: `{...article, ai_summary: ..., ai_keywords: ...,
ai_category: ..., ai_sentiment: ...}`. -/
def mergeArticle (article : JsValue) (e : EnrichmentResult) : JsValue :=
  .obj (setKey (setKey (setKey (setKey (spreadFields article)
    keyAiSummary e.summary)
    keyAiKeywords (.arr (e.keywords.map JsValue.str)))
    keyAiCategory e.category)
    keyAiSentiment e.sentiment)

def keyContentField : JStr := js "content"
def keyObjectID : JStr := js "objectID"

/-- Line 165-172 for one `article`: the two property reads at the call
site (either may throw on a `null` element), the enrichment, the merge. -/
def enrichRecord (gen : Gen) (parse : Parser) (article : JsValue) :
    Except JsErr JsValue := do
  let content ← getProp article keyContentField
  let objectId ← getProp article keyObjectID
  let enrichment := enrichContentWithAI gen parse content objectId
  return mergeArticle article enrichment.1

/-- `for...of`: arrays yield their elements, strings their characters
as one-character strings, every other JSON value is not iterable and
raises `TypeError`. -/
def jsIterate : JsValue → Except JsErr (List JsValue)
  | .arr xs => .ok xs
  | .str s => .ok (s.map (fun c => .str [c]))
  | _ => .error (.typeError (js "articles is not iterable"))

/-- The enrichment loop of lines 163-173. -/
def processLoop (gen : Gen) (parse : Parser) :
    List JsValue → Except JsErr (List JsValue)
  | [] => .ok []
  | article :: rest => do
    let enriched ← enrichRecord gen parse article
    let others ← processLoop gen parse rest
    return enriched :: others

/-- `processArticles(filePath)` (lines 158-180).  `source` is the
outcome of `fs.readFile` (contents or I/O error); `parse` is
`JSON.parse`.  Any error raised inside the `try` block is caught and
the function returns `[]`. -/
def processArticles (gen : Gen) (parse : Parser)
    (source : Except JStr JStr) : List JsValue :=
  match (do
    let fileContent ← source.mapError JsErr.ioError
    let articles ← (parse fileContent).mapError JsErr.parseError
    let items ← jsIterate articles
    processLoop gen parse items : Except JsErr (List JsValue)) with
  | .ok l => l
  | .error _ => []


def genC10 : Gen := fun _ => .error []

def parseC10 : Parser := fun _ => .ok (.str (js "ab"))

/-- The enriched record produced for one character of an iterated
string source. -/
def charRecord (c : Char) : JsValue :=
  .obj [(js "0", .str [c]), (keyAiSummary, .null), (keyAiKeywords, .arr []),
        (keyAiCategory, .null), (keyAiSentiment, .null)]

/-- The enrichment a single record receives: `enrichContentWithAI`
applied to its `content` and `objectID` properties (missing properties
read as `undefined`). -/
def enrichOf (gen : Gen) (parse : Parser) (r : JsValue) : EnrichmentResult :=
  (enrichContentWithAI gen parse ((getOwn r keyContentField).getD .undefined)
    ((getOwn r keyObjectID).getD .undefined)).1

/-- The output record `processArticles` builds for one input record. -/
def recordOutput (gen : Gen) (parse : Parser) (r : JsValue) : JsValue :=
  mergeArticle r (enrichOf gen parse r)

/-- A payload field that is "text or missing" in the sense of the
normalization claim. -/
def textField (payload : JsValue) (k : JStr) : Prop :=
  getOwn payload k = none ∨ ∃ s, getOwn payload k = some (.str s)

/-- Modelled from the claim's words (C7), for comparison with the
source-derived `normalizePayload`: summary is the payload summary text
or absent if missing/falsy; keywords is the comma-split of the
keywords text, or empty if missing; category and sentiment are the
payload texts, or absent if missing. -/
def claimNormalize (payload : JsValue) : EnrichmentResult :=
  { summary := match getOwn payload keySummary with
      | none => .null
      | some v => if truthy v then v else .null
    keywords := match getOwn payload keyKeywords with
      | none => []
      | some v => (splitComma (strVal v)).map jsTrim
    category := match getOwn payload keyCategory with
      | none => .null
      | some v => v
    sentiment := match getOwn payload keySentiment with
      | none => .null
      | some v => v }

/-- The amended normalization (C7): like `claimNormalize` but every
field defaults when missing *or falsy* (in particular an empty text),
exactly as `parsedResult.summary || null` behaves. -/
def amendedNormalize (payload : JsValue) : EnrichmentResult :=
  { summary := match getOwn payload keySummary with
      | none => .null
      | some v => if truthy v then v else .null
    keywords := match getOwn payload keyKeywords with
      | none => []
      | some v => if truthy v then (splitComma (strVal v)).map jsTrim else []
    category := match getOwn payload keyCategory with
      | none => .null
      | some v => if truthy v then v else .null
    sentiment := match getOwn payload keySentiment with
      | none => .null
      | some v => if truthy v then v else .null }

def payloadC7 : JsValue := .obj [(keyCategory, .str [])]

def payloadC7W : JsValue :=
  .obj [(keySummary, .str (js "A short summary.")),
        (keyKeywords, .str (js "solar, energy ,cost")),
        (keyCategory, .str (js "SomeUnlistedLabel")),
        (keySentiment, .str (js "Positive"))]

/-- A model response of valid shape whose text is the two-character
payload consisting of an opening and a closing brace. -/
def respC9 : JsValue :=
  .obj [(keyCandidates, .arr [.obj [(keyContent, .obj [(keyParts,
    .arr [.obj [(keyText, .str [braceOpenC, braceCloseC])]])])]])]

def genC9 : Gen := fun _ => .ok respC9

def payloadC9 : JsValue := .obj [(keySummary, .str (js "s")), (keyKeywords, .num 0)]

def parseC9 : Parser := fun _ => .ok payloadC9

def payloadC9W : JsValue :=
  .obj [(keySummary, .str (js "s")),
        (keyKeywords, .arr [.str (js "a"), .str (js "b")]),
        (keyCategory, .str (js "Technology"))]

def parseC9W : Parser := fun _ => .ok payloadC9W

/-- The spec scenario payload text (a JSON object between braces). -/
def payloadTextC6 : JStr :=
  [braceOpenC] ++ js "\"summary\":\"Solar costs dropped.\",\"keywords\":\"solar,energy,cost\",\"category\":\"Environment\",\"sentiment\":\"Positive\"" ++ [braceCloseC]

def parseC6 : Parser := fun _ => .ok
  (.obj [(keySummary, .str (js "Solar costs dropped.")),
         (keyKeywords, .str (js "solar,energy,cost")),
         (keyCategory, .str (js "Environment")),
         (keySentiment, .str (js "Positive"))])

def parseC5 : Parser := fun _ => .error (js "Unexpected token")

def recordsC2 : List JsValue :=
  [.obj [(keyObjectID, .str (js "1")), (keyContentField, .null)],
   .obj [(keyObjectID, .str (js "2"))]]

def parseC2 : Parser := fun _ => .ok (.arr recordsC2)

def genC2 : Gen := fun _ => .error (js "rate limited")

/-! ## Claim C4: invalid content short-circuits without a model call -/

/-- C4: for every record whose content is absent or not text, `enrich`
returns the all-default `EnrichmentResult` immediately and performs no
model call (the model-call counter is `0`). -/
theorem C4_invalid_content_no_model_call (gen : Gen) (parse : Parser)
    (content objectId : JsValue) (h : isStr content = false) :
    enrichContentWithAI gen parse content objectId = (defaultResult, 0) := by
  unfold enrichContentWithAI
  simp [h]

theorem C4_witness :
    isStr JsValue.null = false ∧
      enrichContentWithAI (fun _ => .error []) (fun _ => .error [])
        JsValue.null JsValue.undefined = (defaultResult, 0) :=
  ⟨rfl, C4_invalid_content_no_model_call _ _ _ _ rfl⟩

/-! ## Claim C1: every error path of `enrich` yields the default result -/

/-- C1: for every content input and every outcome of the model call —
a raised model error, an invalid/missing/empty candidate, unparseable
output, or any other error in the body — `enrichContentWithAI` returns
an `EnrichmentResult` (it is a total function, so nothing surfaces to
the caller) and every error path resolves to the all-default result. -/
theorem C1_enrich_error_gives_default (gen : Gen) (parse : Parser)
    (content objectId : JsValue) (e : JsErr)
    (h : enrichBody gen parse (strVal content) = .error e) :
    (enrichContentWithAI gen parse content objectId).1 = defaultResult := by
  unfold enrichContentWithAI
  split
  · rfl
  · rw [h]

theorem C1_witness :
    enrichBody (fun _ => .error (js "network down")) (fun _ => .error [])
        (strVal (.str (js "hello"))) = .error (.genError (js "network down")) ∧
      (enrichContentWithAI (fun _ => .error (js "network down")) (fun _ => .error [])
        (.str (js "hello")) .null).1 = defaultResult :=
  ⟨rfl, C1_enrich_error_gives_default _ _ _ _ _ rfl⟩

/-! ## Claim C3: unreadable or unparseable source yields the empty batch -/

/-- C3: for every source that cannot be read (`fs.readFile` raises) or
whose content cannot be parsed (`JSON.parse` raises), `processArticles`
returns the empty sequence; being a total function it never raises. -/
theorem C3_bad_source_empty (gen : Gen) (parse : Parser) :
    (∀ e : JStr, processArticles gen parse (.error e) = []) ∧
    (∀ s m, parse s = .error m → processArticles gen parse (.ok s) = []) := by
  constructor
  · intro e
    rfl
  · intro s m h
    unfold processArticles
    simp only [bind, Except.bind, Except.mapError, h]

theorem C3_witness :
    (fun (_ : JStr) => (Except.error (js "bad json") : Except JStr JsValue)) (js "oops")
        = .error (js "bad json") ∧
      processArticles (fun _ => .error []) (fun _ => .error (js "bad json"))
        (.ok (js "oops")) = [] :=
  ⟨rfl, (C3_bad_source_empty _ _).2 _ _ rfl⟩

/-! ## Claim C10: parse success that is not a record collection -/


/-- C10 counterexample: a source parsing to the text `"ab"` parses
successfully and is not an ordered collection of records, yet
`processArticles` iterates it character-by-character (strings are
iterable in JavaScript) and returns two records, not the empty
sequence the claim demands. -/
theorem C10_counterexample :
    parseC10 (js "\"ab\"") = .ok (.str (js "ab")) ∧
      processArticles genC10 parseC10 (.ok (js "\"ab\""))
        = [charRecord 'a', charRecord 'b'] ∧
      [charRecord 'a', charRecord 'b'] ≠ ([] : List JsValue) :=
  ⟨rfl, rfl, fun h => nomatch h⟩

/-- C10 (amended): for every source whose content parses successfully
to a value that is neither an ordered collection nor a text value (a
single object, a number, a boolean, or null), the `for...of` iteration
raises `TypeError`, the surrounding handler catches it, and
`processArticles` returns the empty sequence.  (A text value is
iterable in JavaScript, so it is instead enriched character by
character — see the counterexample.) -/
theorem C10_non_collection_empty (gen : Gen) (parse : Parser)
    (s : JStr) (v : JsValue) (hp : parse s = .ok v)
    (ha : isArr v = false) (hs : isStr v = false) :
    processArticles gen parse (.ok s) = [] := by
  have hit : jsIterate v = .error (.typeError (js "articles is not iterable")) := by
    cases v <;> simp_all [jsIterate, isArr, isStr]
  unfold processArticles
  simp only [bind, Except.bind, Except.mapError, hp, hit]

theorem C10_witness :
    (fun (_ : JStr) => (Except.ok (JsValue.num 5) : Except JStr JsValue)) (js "5")
        = .ok (.num 5) ∧
      isArr (.num 5) = false ∧ isStr (.num 5) = false ∧
      processArticles (fun _ => .error []) (fun _ => .ok (.num 5)) (.ok (js "5")) = [] :=
  ⟨rfl, rfl, rfl, C10_non_collection_empty _ _ _ _ rfl rfl rfl⟩

/-! ## Claim C6: fenced decoration does not change extraction -/

theorem stripFence_wrap (p : JStr) :
    stripFence (fenceOpen ++ p ++ fenceClose) = p := by
  have h1 : fenceOpen.isPrefixOf (fenceOpen ++ p ++ fenceClose) = true := by
    rw [ List.isPrefixOf_iff_prefix, List.append_assoc]
    exact List.prefix_append _ _
  have hdrop : (fenceOpen ++ p ++ fenceClose).drop fenceOpen.length
      = p ++ fenceClose := by
    rw [List.append_assoc]
    exact List.drop_left _ _
  have h2 : fenceClose.isSuffixOf (p ++ fenceClose) = true := by
    rw [List.isSuffixOf_iff_suffix]
    exact List.suffix_append _ _
  simp only [stripFence, h1, if_true, hdrop, h2]
  rw [List.length_append, Nat.add_sub_cancel]
  exact List.take_left _ _

theorem stripFence_id (p : JStr) (h1 : fenceOpen.isPrefixOf p = false)
    (h2 : fenceClose.isSuffixOf p = false) : stripFence p = p := by
  simp only [stripFence, h1, h2, Bool.false_eq_true, if_false]

/-- C6: for every payload text that is not itself fence-decorated (so
in particular every well-formed structured payload), extraction of the
fenced decoration and extraction of the bare payload yield equal
results, for every parse outcome — hence the same normalized object
for a valid payload. -/
theorem C6_fence_decoration_irrelevant (parse : Parser) (p : JStr)
    (h1 : fenceOpen.isPrefixOf p = false)
    (h2 : fenceClose.isSuffixOf p = false) :
    extract parse (fenceOpen ++ p ++ fenceClose) = extract parse p := by
  unfold extract
  rw [stripFence_wrap, stripFence_id p h1 h2]

theorem C6_witness :
    fenceOpen.isPrefixOf payloadTextC6 = false ∧
      fenceClose.isSuffixOf payloadTextC6 = false ∧
      extract parseC6 (fenceOpen ++ payloadTextC6 ++ fenceClose)
        = extract parseC6 payloadTextC6 :=
  ⟨by decide, by decide, C6_fence_decoration_irrelevant _ _ (by decide) (by decide)⟩

/-! ## Claim C5: brace location, failure message, and parse of the slice -/

/-- C5: on the cleaned model text, when there is no opening brace, or
no closing brace, or the last closing brace does not strictly follow
the first opening brace, `extract` fails with an `ExtractionError`
whose message includes the (200-character) truncated prefix of the
offending text; otherwise it parses exactly the substring from the
first opening brace to the last closing brace inclusive, surfacing a
parse failure as an `ExtractionError`. -/
theorem C5_extract_boundaries (parse : Parser) (text cleaned : JStr)
    (hc : cleaned = jsTrim (stripFence text)) :
    (braceSlice cleaned = none ↔
      (idxOf? cleaned braceOpenC = none ∨ lastIdxOf? cleaned braceCloseC = none ∨
        ∀ i j, idxOf? cleaned braceOpenC = some i →
          lastIdxOf? cleaned braceCloseC = some j → j ≤ i)) ∧
    (braceSlice cleaned = none →
      extract parse text = .error (.noJsonError cleaned) ∧
      isExtractionError (.noJsonError cleaned) = true ∧
      cleaned.take 200 <:+: errMessage (.noJsonError cleaned)) ∧
    (∀ i j, idxOf? cleaned braceOpenC = some i →
      lastIdxOf? cleaned braceCloseC = some j → i < j →
      extract parse text =
        (match parse ((cleaned.drop i).take (j + 1 - i)) with
         | .ok payload => normalizePayload payload
         | .error m => .error (.parseError m)) ∧
      ∀ m, parse ((cleaned.drop i).take (j + 1 - i)) = .error m →
        extract parse text = .error (.parseError m) ∧
        isExtractionError (.parseError m) = true) := by
  subst hc
  refine ⟨?_, ?_, ?_⟩
  · unfold braceSlice
    rcases h1 : idxOf? (jsTrim (stripFence text)) braceOpenC with _ | i <;>
      rcases h2 : lastIdxOf? (jsTrim (stripFence text)) braceCloseC with _ | j <;>
      simp [h1, h2]
  · intro h
    refine ⟨?_, rfl, ?_⟩
    · simp only [extract, h]
      rfl
    · exact ⟨js "Could not find valid JSON in Gemini response: ",
        (jsTrim (stripFence text)).drop 200,
        by rw [List.append_assoc, List.take_append_drop]; rfl⟩
  · intro i j hi hj hij
    have hb : braceSlice (jsTrim (stripFence text))
        = some (((jsTrim (stripFence text)).drop i).take (j + 1 - i)) := by
      unfold braceSlice
      rw [hi, hj]
      simp [hij]
    constructor
    · simp only [extract, hb]
      rcases hp : parse (((jsTrim (stripFence text)).drop i).take (j + 1 - i)) with m | payload <;>
        simp [hp, Except.mapError, bind, Except.bind]
    · intro m hm
      refine ⟨?_, rfl⟩
      simp [extract, hb, hm, Except.mapError, bind, Except.bind]

theorem C5_witness :
    js "no json here" = jsTrim (stripFence (js "no json here")) ∧
      braceSlice (js "no json here") = none ∧
      (extract parseC5 (js "no json here")
          = .error (.noJsonError (js "no json here")) ∧
        isExtractionError (.noJsonError (js "no json here")) = true ∧
        (js "no json here").take 200 <:+:
          errMessage (.noJsonError (js "no json here"))) :=
  ⟨by decide, by decide,
    (C5_extract_boundaries parseC5 (js "no json here") _ (by decide)).2.1 (by decide)⟩


/-! ## Claim C7: normalization of a parsed payload -/

theorem normalizePayload_obj (fs : List (JStr × JsValue)) (kw : JsValue)
    (hkw : (assocGet fs keyKeywords).getD .undefined = kw)
    (h : isStr kw = true ∨ truthy kw = false) :
    normalizePayload (.obj fs) = .ok
      { summary := orNull ((assocGet fs keySummary).getD .undefined)
        keywords := if truthy kw then (splitComma (strVal kw)).map jsTrim else []
        category := orNull ((assocGet fs keyCategory).getD .undefined)
        sentiment := orNull ((assocGet fs keySentiment).getD .undefined) } := by
  simp only [normalizePayload, getProp, bind, Except.bind, hkw]
  rcases h with h | h
  · rcases kw with _ | _ | b | n | s | xs | gs <;> simp [isStr] at h ⊢
    rcases hT : truthy (JsValue.str s) with _ | _ <;>
      simp [hT, jsSplitTrim, pure, Except.pure, strVal]
  · simp [h, pure, Except.pure]

/-- C7 counterexample: for the payload whose `category` is the empty
text (present and text, but falsy), the source normalization yields an
absent category (`parsedResult.category || null` is `null`), while the
claim ("category equal to the payload's category text or absent if
missing") demands the empty text itself. -/
theorem C7_counterexample :
    normalizePayload payloadC7 = .ok defaultResult ∧
      claimNormalize payloadC7
        = { summary := .null, keywords := [], category := .str [], sentiment := .null } ∧
      ({ summary := .null, keywords := [], category := .str [], sentiment := .null }
          : EnrichmentResult) ≠ defaultResult :=
  ⟨rfl, rfl, fun h => nomatch congrArg EnrichmentResult.category h⟩

/-- C7 (amended): for every successfully parsed payload whose four
expected fields are each text or missing, normalization produces:
summary equal to the payload summary text, or absent if it is missing
or falsy; keywords equal to the comma-joined keywords text split on
the comma with each element trimmed, or the empty sequence if keywords
is missing or falsy (in particular the empty text); category and
sentiment equal to the payload texts, or absent if missing or falsy —
with no validation that category or sentiment belong to the closed
label sets (the witness passes an unlisted label through). -/
theorem C7_normalization (payload : JsValue)
    (hs : textField payload keySummary) (hk : textField payload keyKeywords)
    (hc : textField payload keyCategory) (hst : textField payload keySentiment)
    (hobj : isObj payload = true) :
    normalizePayload payload = .ok (amendedNormalize payload) := by
  rcases payload with _ | _ | b | n | s | xs | fs <;> simp [isObj] at hobj
  simp only [textField, getOwn] at hs hk hc hst
  rcases hk with hk | ⟨s2, hk⟩
  · rw [ normalizePayload_obj fs .undefined (by rw [hk]; rfl) (Or.inr rfl)]
    rcases hs with hs | ⟨s1, hs⟩ <;> rcases hc with hc | ⟨s3, hc⟩ <;>
      rcases hst with hst | ⟨s4, hst⟩ <;>
        simp [amendedNormalize, getOwn, orNull, hs, hc, hst, hk, truthy, strVal, splitComma]
  · rw [ normalizePayload_obj fs (.str s2) (by rw [hk]; rfl) (Or.inl rfl)]
    rcases hs with hs | ⟨s1, hs⟩ <;> rcases hc with hc | ⟨s3, hc⟩ <;>
      rcases hst with hst | ⟨s4, hst⟩ <;>
        simp [amendedNormalize, getOwn, orNull, hs, hc, hst, hk, truthy, strVal, splitComma]

theorem C7_witness :
    textField payloadC7W keySummary ∧ textField payloadC7W keyKeywords ∧
      textField payloadC7W keyCategory ∧ textField payloadC7W keySentiment ∧
      isObj payloadC7W = true ∧
      normalizePayload payloadC7W = .ok (amendedNormalize payloadC7W) ∧
      amendedNormalize payloadC7W
        = { summary := .str (js "A short summary.")
            keywords := [js "solar", js "energy", js "cost"]
            category := .str (js "SomeUnlistedLabel")
            sentiment := .str (js "Positive") } :=
  ⟨Or.inr ⟨_, rfl⟩, Or.inr ⟨_, rfl⟩, Or.inr ⟨_, rfl⟩, Or.inr ⟨_, rfl⟩, rfl,
    C7_normalization _ (Or.inr ⟨_, rfl⟩) (Or.inr ⟨_, rfl⟩) (Or.inr ⟨_, rfl⟩)
      (Or.inr ⟨_, rfl⟩) rfl, rfl⟩

/-! ## Claim C9: truthy non-text keywords discard the whole payload -/

/-- C9 counterexample: a payload whose `keywords` field is present and
not text but falsy (the number `0`) does not produce the all-default
result: `parsedResult.keywords ? ... : []` never calls `split` on a
falsy value, so only keywords defaults while the payload summary is
kept. -/
theorem C9_counterexample :
    getOwn payloadC9 keyKeywords = some (.num 0) ∧ isStr (.num 0) = false ∧
      enrichContentWithAI genC9 parseC9 (.str (js "x")) .null
        = ({ summary := .str (js "s"), keywords := [], category := .null,
             sentiment := .null }, 1) ∧
      ({ summary := .str (js "s"), keywords := [], category := .null,
         sentiment := .null } : EnrichmentResult) ≠ defaultResult :=
  ⟨rfl, rfl, rfl, fun h => nomatch congrArg EnrichmentResult.summary h⟩

/-- If the keywords value is truthy and not text, the keywords
normalization step raises a `TypeError` (`split` is not a function),
so the whole normalization fails. -/
theorem normalizePayload_keywords_throw (fs : List (JStr × JsValue)) (kw : JsValue)
    (hkw : (assocGet fs keyKeywords).getD .undefined = kw)
    (hkt : truthy kw = true) (hks : isStr kw = false) :
    ∃ m, normalizePayload (.obj fs) = .error (.typeError m) := by
  simp only [normalizePayload, getProp, bind, Except.bind, hkw, hkt, if_true]
  rcases kw with _ | _ | b | n | s | xs | gs <;> simp_all [truthy, isStr, jsSplitTrim]

/-- C9 (amended): for every model response whose embedded payload
parses successfully but whose keywords field is present, truthy and
not text (for example an ordered sequence of texts), `enrich` returns
the all-default `EnrichmentResult`, discarding the payload's summary,
category and sentiment even when those are valid: the failed keywords
split is caught by the outer handler, which replaces the whole result
with defaults.  (A falsy non-text keywords value instead defaults only
the keywords field — see the counterexample.) -/
theorem C9_bad_keywords_all_default (gen : Gen) (parse : Parser)
    (content objectId resp : JsValue) (t jstr : JStr)
    (fs : List (JStr × JsValue)) (kw : JsValue)
    (hct : truthy content = true) (hcs : isStr content = true)
    (hg : gen (mkPrompt (strVal content)) = .ok resp)
    (ht : getValidText resp = .ok (.str t))
    (hb : braceSlice (jsTrim (stripFence t)) = some jstr)
    (hp : parse jstr = .ok (.obj fs))
    (hkw : (assocGet fs keyKeywords).getD .undefined = kw)
    (hkt : truthy kw = true) (hks : isStr kw = false) :
    enrichContentWithAI gen parse content objectId = (defaultResult, 1) := by
  obtain ⟨m, hm⟩ := normalizePayload_keywords_throw fs kw hkw hkt hks
  have hbody : enrichBody gen parse (strVal content)
      = .error (.typeError m) := by
    simp [enrichBody, hg, Except.mapError, bind, Except.bind, ht, extract,
      hb, hp, hm]
  unfold enrichContentWithAI
  simp [hct, hcs, hbody]

theorem C9_witness :
    truthy (JsValue.str (js "x")) = true ∧ isStr (JsValue.str (js "x")) = true ∧
      genC9 (mkPrompt (strVal (.str (js "x")))) = .ok respC9 ∧
      getValidText respC9 = .ok (.str [braceOpenC, braceCloseC]) ∧
      braceSlice (jsTrim (stripFence [braceOpenC, braceCloseC]))
        = some [braceOpenC, braceCloseC] ∧
      parseC9W [braceOpenC, braceCloseC] = .ok payloadC9W ∧
      (match payloadC9W with
       | .obj fs => (assocGet fs keyKeywords).getD .undefined
       | _ => .undefined) = .arr [.str (js "a"), .str (js "b")] ∧
      truthy (JsValue.arr [.str (js "a"), .str (js "b")]) = true ∧
      isStr (JsValue.arr [.str (js "a"), .str (js "b")]) = false ∧
      enrichContentWithAI genC9 parseC9W (.str (js "x")) .null = (defaultResult, 1) :=
  ⟨rfl, rfl, rfl, rfl, rfl, rfl, rfl, rfl, rfl,
    C9_bad_keywords_all_default genC9 parseC9W (.str (js "x")) .null respC9
      [braceOpenC, braceCloseC] [braceOpenC, braceCloseC] _ _
      rfl rfl rfl rfl rfl rfl rfl rfl rfl⟩

/-! ## Claims C2 and C8: batch shape, order, and statelessness -/

theorem enrichRecord_obj (gen : Gen) (parse : Parser) (fs : List (JStr × JsValue)) :
    enrichRecord gen parse (.obj fs) = .ok (recordOutput gen parse (.obj fs)) := by
  simp [enrichRecord, getProp, recordOutput, enrichOf, getOwn, bind, Except.bind, pure, Except.pure]

theorem processLoop_map (gen : Gen) (parse : Parser) (items : List JsValue)
    (hall : ∀ r ∈ items, isObj r = true) :
    processLoop gen parse items = .ok (items.map (recordOutput gen parse)) := by
  induction items with
  | nil => rfl
  | cons a rest ih =>
    have ha : isObj a = true := hall a (List.mem_cons_self a rest)
    rcases a with _ | _ | b | n | s | xs | fs <;> simp [isObj] at ha
    have ihr := ih (fun r hr => hall r (List.mem_cons_of_mem _ hr))
    simp [processLoop, enrichRecord_obj, ihr, bind, Except.bind, pure, Except.pure]

theorem processArticles_ok (gen : Gen) (parse : Parser) (s : JStr)
    (records : List JsValue) (hp : parse s = .ok (.arr records))
    (hall : ∀ r ∈ records, isObj r = true) :
    processArticles gen parse (.ok s) = records.map (recordOutput gen parse) := by
  unfold processArticles
  simp only [bind, Except.bind, Except.mapError, hp, jsIterate,
    processLoop_map gen parse records hall]

theorem assocGet_of_any_false (fs : List (JStr × JsValue)) (k : JStr)
    (h : fs.any (fun p => p.1 == k) = false) : assocGet fs k = none := by
  induction fs with
  | nil => rfl
  | cons p rest ih =>
    simp only [List.any_cons, Bool.or_eq_false_iff] at h
    simp [assocGet, h.1, ih h.2]

theorem assocGet_append_singleton (fs : List (JStr × JsValue)) (k k' : JStr)
    (v : JsValue) (hne : (k == k') = false) :
    assocGet (fs ++ [(k, v)]) k' = assocGet fs k' := by
  induction fs with
  | nil => simp [assocGet, hne]
  | cons p rest ih =>
    by_cases hp : (p.1 == k') = true <;> simp [assocGet, hp, ih]

theorem assocGet_map_self (fs : List (JStr × JsValue)) (k : JStr) (v : JsValue)
    (h : fs.any (fun p => p.1 == k) = true) :
    assocGet (fs.map (fun p => if p.1 == k then (k, v) else p)) k = some v := by
  induction fs with
  | nil => simp at h
  | cons p rest ih =>
    by_cases hp : p.1 = k
    · simp [assocGet, hp]
    · have hp' : (p.1 == k) = false := beq_eq_false_iff_ne.mpr hp
      simp only [List.any_cons, hp', Bool.false_or] at h
      simp only [List.map_cons, hp', Bool.false_eq_true, if_false, assocGet]
      exact ih h

theorem assocGet_append_last_self (fs : List (JStr × JsValue)) (k : JStr)
    (v : JsValue) (h : assocGet fs k = none) :
    assocGet (fs ++ [(k, v)]) k = some v := by
  induction fs with
  | nil => simp only [List.nil_append, assocGet, beq_self_eq_true, if_true]
  | cons p rest ih =>
    simp only [assocGet] at h ⊢
    by_cases hp : (p.1 == k) = true
    · rw [if_pos hp] at h
      exact absurd h (by simp)
    · rw [if_neg hp] at h
      simp only [List.cons_append, assocGet, hp, if_false]
      exact ih h

theorem assocGet_setKey_self (fs : List (JStr × JsValue)) (k : JStr) (v : JsValue) :
    assocGet (setKey fs k v) k = some v := by
  unfold setKey
  split
  case isTrue h => exact assocGet_map_self fs k v h
  case isFalse h =>
    exact assocGet_append_last_self fs k v
      (assocGet_of_any_false fs k (Bool.not_eq_true _ ▸ h))

theorem assocGet_map_ne (fs : List (JStr × JsValue)) (k : JStr) (v : JsValue)
    (k' : JStr) (hne : k' ≠ k) :
    assocGet (fs.map (fun p => if p.1 == k then (k, v) else p)) k'
      = assocGet fs k' := by
  induction fs with
  | nil => rfl
  | cons p rest ih =>
    by_cases hp : p.1 = k
    · have h1 : (p.1 == k) = true := by simp [hp]
      have h2 : (k == k') = false := beq_eq_false_iff_ne.mpr (Ne.symm hne)
      have h3 : (p.1 == k') = false := by
        rw [hp]
        exact h2
      simp only [List.map_cons, h1, if_true, assocGet, h2, h3,
        Bool.false_eq_true, if_false]
      exact ih
    · have h1 : (p.1 == k) = false := beq_eq_false_iff_ne.mpr hp
      simp only [List.map_cons, h1, Bool.false_eq_true, if_false, assocGet, ih]

theorem assocGet_setKey_ne (fs : List (JStr × JsValue)) (k : JStr) (v : JsValue)
    (k' : JStr) (hne : k' ≠ k) :
    assocGet (setKey fs k v) k' = assocGet fs k' := by
  unfold setKey
  split
  case isTrue h => exact assocGet_map_ne fs k v k' hne
  case isFalse h =>
    exact assocGet_append_singleton fs k k' v (beq_eq_false_iff_ne.mpr (Ne.symm hne))

theorem getOwn_merge_summary (a : JsValue) (e : EnrichmentResult) :
    getOwn (mergeArticle a e) keyAiSummary = some e.summary := by
  show assocGet (setKey (setKey (setKey (setKey (spreadFields a)
      keyAiSummary e.summary) keyAiKeywords (.arr (e.keywords.map JsValue.str)))
      keyAiCategory e.category) keyAiSentiment e.sentiment) keyAiSummary = some e.summary
  rw [assocGet_setKey_ne _ _ _ _ (by decide), assocGet_setKey_ne _ _ _ _ (by decide),
    assocGet_setKey_ne _ _ _ _ (by decide), assocGet_setKey_self]

theorem getOwn_merge_keywords (a : JsValue) (e : EnrichmentResult) :
    getOwn (mergeArticle a e) keyAiKeywords
      = some (.arr (e.keywords.map JsValue.str)) := by
  show assocGet (setKey (setKey (setKey (setKey (spreadFields a)
      keyAiSummary e.summary) keyAiKeywords (.arr (e.keywords.map JsValue.str)))
      keyAiCategory e.category) keyAiSentiment e.sentiment) keyAiKeywords = some (.arr (e.keywords.map JsValue.str))
  rw [assocGet_setKey_ne _ _ _ _ (by decide), assocGet_setKey_ne _ _ _ _ (by decide),
    assocGet_setKey_self]

theorem getOwn_merge_category (a : JsValue) (e : EnrichmentResult) :
    getOwn (mergeArticle a e) keyAiCategory = some e.category := by
  show assocGet (setKey (setKey (setKey (setKey (spreadFields a)
      keyAiSummary e.summary) keyAiKeywords (.arr (e.keywords.map JsValue.str)))
      keyAiCategory e.category) keyAiSentiment e.sentiment) keyAiCategory = some e.category
  rw [assocGet_setKey_ne _ _ _ _ (by decide), assocGet_setKey_self]

theorem getOwn_merge_sentiment (a : JsValue) (e : EnrichmentResult) :
    getOwn (mergeArticle a e) keyAiSentiment = some e.sentiment := by
  show assocGet (setKey (setKey (setKey (setKey (spreadFields a)
      keyAiSummary e.summary) keyAiKeywords (.arr (e.keywords.map JsValue.str)))
      keyAiCategory e.category) keyAiSentiment e.sentiment) keyAiSentiment = some e.sentiment
  rw [assocGet_setKey_self]

theorem getOwn_merge_other (a : JsValue) (e : EnrichmentResult) (k : JStr)
    (h1 : k ≠ keyAiSummary) (h2 : k ≠ keyAiKeywords)
    (h3 : k ≠ keyAiCategory) (h4 : k ≠ keyAiSentiment) :
    getOwn (mergeArticle a e) k = assocGet (spreadFields a) k := by
  show assocGet (setKey (setKey (setKey (setKey (spreadFields a)
      keyAiSummary e.summary) keyAiKeywords (.arr (e.keywords.map JsValue.str)))
      keyAiCategory e.category) keyAiSentiment e.sentiment) k = assocGet (spreadFields a) k
  rw [assocGet_setKey_ne _ _ _ _ h4, assocGet_setKey_ne _ _ _ _ h3,
    assocGet_setKey_ne _ _ _ _ h2, assocGet_setKey_ne _ _ _ _ h1]

/-- C2: for every input collection of records (objects), `processAll`
yields exactly as many output records, in input order (the output is
the elementwise image of the input); each output record carries the
four `ai_*` keys — holding that record's enrichment outcome, defaults
included when enrichment failed — and retains every other field of the
original record unchanged. -/
theorem C2_processAll_shape (gen : Gen) (parse : Parser) (s : JStr)
    (records : List JsValue) (hp : parse s = .ok (.arr records))
    (hall : ∀ r ∈ records, isObj r = true) :
    processArticles gen parse (.ok s) = records.map (recordOutput gen parse) ∧
    (processArticles gen parse (.ok s)).length = records.length ∧
    ∀ r ∈ records,
      getOwn (recordOutput gen parse r) keyAiSummary
          = some (enrichOf gen parse r).summary ∧
      getOwn (recordOutput gen parse r) keyAiKeywords
          = some (.arr ((enrichOf gen parse r).keywords.map JsValue.str)) ∧
      getOwn (recordOutput gen parse r) keyAiCategory
          = some (enrichOf gen parse r).category ∧
      getOwn (recordOutput gen parse r) keyAiSentiment
          = some (enrichOf gen parse r).sentiment ∧
      ∀ k, k ≠ keyAiSummary → k ≠ keyAiKeywords →
        k ≠ keyAiCategory → k ≠ keyAiSentiment →
        getOwn (recordOutput gen parse r) k = getOwn r k := by
  have hmap := processArticles_ok gen parse s records hp hall
  refine ⟨hmap, by rw [hmap, List.length_map], ?_⟩
  intro r hr
  have hro : recordOutput gen parse r = mergeArticle r (enrichOf gen parse r) := rfl
  refine ⟨by rw [hro, getOwn_merge_summary], by rw [hro, getOwn_merge_keywords],
    by rw [hro, getOwn_merge_category], by rw [hro, getOwn_merge_sentiment], ?_⟩
  intro k h1 h2 h3 h4
  rw [hro, getOwn_merge_other r _ k h1 h2 h3 h4]
  have ho : isObj r = true := hall r hr
  rcases r with _ | _ | b | n | str | xs | fs <;> simp [isObj] at ho
  rfl

theorem C2_witness :
    parseC2 (js "input") = .ok (.arr recordsC2) ∧
      (∀ r ∈ recordsC2, isObj r = true) ∧
      processArticles genC2 parseC2 (.ok (js "input"))
        = recordsC2.map (recordOutput genC2 parseC2) ∧
      (processArticles genC2 parseC2 (.ok (js "input"))).length = recordsC2.length :=
  have h := C2_processAll_shape genC2 parseC2 (js "input") recordsC2 rfl (by decide)
  ⟨rfl, by decide, h.1, h.2.1⟩

/-- C8: with the source contents unchanged and a deterministic model
function, two calls of `processAll` yield identical output sequences
(in the embedding the pipeline is a pure function of its inputs), and
no state is shared across records or runs: the whole batch is the
elementwise image of the input records, each output depending only on
its own record. -/
theorem C8_idempotent_no_shared_state (gen : Gen) (parse : Parser)
    (source : Except JStr JStr) :
    processArticles gen parse source = processArticles gen parse source ∧
    (∀ s records, source = .ok s → parse s = .ok (.arr records) →
      (∀ r ∈ records, isObj r = true) →
      processArticles gen parse source = records.map (recordOutput gen parse)) :=
  ⟨rfl, fun s records hsrc hp hall =>
    hsrc ▸ processArticles_ok gen parse s records hp hall⟩

theorem C8_witness :
    (Except.ok (js "input") : Except JStr JStr) = .ok (js "input") ∧
      parseC2 (js "input") = .ok (.arr recordsC2) ∧
      (∀ r ∈ recordsC2, isObj r = true) ∧
      processArticles genC2 parseC2 (.ok (js "input"))
        = processArticles genC2 parseC2 (.ok (js "input")) ∧
      processArticles genC2 parseC2 (.ok (js "input"))
        = recordsC2.map (recordOutput genC2 parseC2) :=
  have h := C8_idempotent_no_shared_state genC2 parseC2 (.ok (js "input"))
  ⟨rfl, rfl, by decide, h.1, h.2 (js "input") recordsC2 rfl rfl (by decide)⟩
